import Mathlib

/-!
# Verification of the finlit gamification / content-generation core

Shallow embedding of the XP/level/streak bookkeeping, savings-goal updates,
achievement unlocking, analytics aggregates, and the lesson content
"ensure"/generation flow of the finlit web application.  Each definition
mirrors one function of the source; theorems settle the specification's
claims about them.

Conventions:
* Calendar dates are abstracted as whole-day numbers (`ℤ`): the source
  normalises both dates to local midnight before subtracting, so the
  millisecond difference is an exact multiple of 86,400,000 and
  `Math.floor(diff / 86400000)` equals the difference of day numbers.
* Monetary quantities are rationals (`ℚ`); the JavaScript numbers involved
  are decimal amounts on which the relevant arithmetic is exact.
* XP, coins, levels and streaks are naturals: they start at 0/1 and the
  code only ever adds non-negative constants.
* A nullable text column is `Option String`; JavaScript truthiness of a
  string (`null`, `undefined` and `""` are falsy) is made explicit.
-/

namespace Finlit

/-- A user profile row (`profiles` table), restricted to the columns the
gamification code reads and writes. -/
structure Profile where
  xp : ℕ
  level : ℕ
  coins : ℕ
  streakDays : ℕ
  lastLoginDate : Option ℤ
  deriving Repr, DecidableEq

/-- `Math.floor(newXP / 1000) + 1`, the level formula used by
`Quiz.tsx` (`saveQuizAttempt`) and `CourseDetail` (`markLessonComplete`). -/
def levelFor (xp : ℕ) : ℕ := xp / 1000 + 1

/-- `Expenses.tsx`, `handleSubmit` lines 75-86: after inserting the expense
the client reads the profile's `xp` and issues
`update({ xp: currentXP + 10 })` — only the `xp` column is written; `level`
is not recomputed. -/
def expenseXpAwardClient (p : Profile) : Profile :=
  { p with xp := p.xp + 10 }

/-- Migration function `add_xp_to_user(p_user_id, p_xp_amount)`:
`SET xp = xp + amount, coins = coins + amount / 10,
level = FLOOR((xp + amount) / 1000) + 1` (old `xp` on the right-hand side).
This is the repository's own canonical XP update and it does recompute the
level. -/
def add_xp_to_user (p : Profile) (amount : ℕ) : Profile :=
  { p with
    xp := p.xp + amount
    coins := p.coins + amount / 10
    level := (p.xp + amount) / 1000 + 1 }

/-- `Goals` page, `createGoal`: after inserting the goal the client writes
`{ xp: xp + 50, coins: coins + 10 }` — again without touching `level`. -/
def createGoalXpAward (p : Profile) : Profile :=
  { p with xp := p.xp + 50, coins := p.coins + 10 }

/-- `Quiz.tsx`, `saveQuizAttempt` lines 116-129: profile update after a quiz,
`{ xp: newXP, level: Math.floor(newXP / 1000) + 1 }`. -/
def quizXpAward (p : Profile) (xpEarned : ℕ) : Profile :=
  { p with xp := p.xp + xpEarned, level := (p.xp + xpEarned) / 1000 + 1 }

/-- `auth` provider, `handleDailyLoginReward` lines 792-813 (the path taken
when the profile row exists).  `diffDays` is the whole-day difference between
the start of today and the start of the recorded last login;
`newStreak = streak_days || 0`, set to `1` with no previous login,
incremented when `diffDays == 1`, reset to `1` when `diffDays > 1`, and left
alone otherwise; the update writes `last_login_date`, `streak_days` and
`xp + 20` — `level` is not among the written columns. -/
def handleDailyLoginReward (p : Profile) (today : ℤ) : Profile :=
  let newStreak :=
    match p.lastLoginDate with
    | none => 1
    | some last =>
        let diffDays := today - last
        if diffDays = 1 then p.streakDays + 1
        else if diffDays > 1 then 1
        else p.streakDays
  { p with lastLoginDate := some today, streakDays := newStreak, xp := p.xp + 20 }

/-- A savings goal row (`savings_goals`), restricted to the columns
`addToGoal` touches. -/
structure SavingsGoal where
  current_amount : ℚ
  target_amount : ℚ
  completed : Bool
  deriving Repr, DecidableEq

/-- `Goals` page, `addToGoal` lines 124-147: amounts `<= 0` are rejected with
a toast and no update; otherwise `newAmount = current_amount + amount` and
`completed = newAmount >= target_amount` are written. -/
def addToGoal (g : SavingsGoal) (amount : ℚ) : SavingsGoal :=
  if amount ≤ 0 then g
  else
    let newAmount := g.current_amount + amount
    { g with
      current_amount := newAmount
      completed := decide (newAmount ≥ g.target_amount) }

/-- An in-memory lesson as held by the `CourseDetail` page (interface
`Lesson`); `content` is nullable in the store, and a missing/empty string is
falsy in the source's truthiness checks. -/
structure LessonMem where
  id : String
  title : String
  content : Option String
  order_index : ℕ
  xp_reward : ℕ
  estimated_minutes : ℕ
  completed : Bool
  deriving Repr, DecidableEq

/-- JavaScript `String.prototype.trim`: drop leading and trailing
whitespace. -/
def jsTrim (s : String) : String :=
  ⟨((s.data.dropWhile Char.isWhitespace).reverse.dropWhile
      Char.isWhitespace).reverse⟩

/-- JavaScript truthiness test `content && content.trim() !== ''` applied to
a nullable text value. -/
def contentNonBlank : Option String → Bool
  | none => false
  | some s => !(jsTrim s == "")

/-- `CourseDetail`, `ensureLessonContent` lines 396-419: when the in-memory
lesson is found and its content is non-blank the function returns before
invoking the `generate-lesson` edge function; otherwise it invokes
generation (first component `true`) and, when the response carries truthy
content `genContent`, replaces that lesson's content in the page state. -/
def ensureLessonContent (lessons : List LessonMem) (lessonId : String)
    (genContent : String) : Bool × List LessonMem :=
  match lessons.find? (fun l => l.id == lessonId) with
  | some l =>
      if contentNonBlank l.content then (false, lessons)
      else
        (true,
          if genContent == "" then lessons
          else lessons.map fun x =>
            if x.id == lessonId then { x with content := some genContent } else x)
  | none =>
      (true,
        if genContent == "" then lessons
        else lessons.map fun x =>
          if x.id == lessonId then { x with content := some genContent } else x)

/-- `generate-lesson` edge function, persist step lines 119-164: the store's
row for `(lessonId, courseId)` is looked up (`some stored` when the row
exists, `none` when the select fails because the row is missing); content is
written only when the stored value is null or blank, and a missing row is
inserted with the generated text.  Returns the resulting stored content and
the `saved` flag. -/
def persistLessonContent (existing : Option (Option String))
    (lessonText : String) : Option String × Bool :=
  match existing with
  | some stored =>
      if contentNonBlank stored then (stored, false)
      else (some lessonText, true)
  | none => (some lessonText, true)

/-- A JavaScript number as produced by the analytics division: a finite
rational, a signed infinity, or NaN. -/
inductive JsVal where
  | num (q : ℚ)
  | posInf
  | negInf
  | nan
  deriving Repr, DecidableEq

/-- JavaScript division `a / b` on finite decimal inputs: finite quotient
when `b ≠ 0`, `±Infinity` when `b = 0` and `a ≠ 0`, `NaN` when both are 0. -/
def jsDiv (a b : ℚ) : JsVal :=
  if b = 0 then
    if 0 < a then JsVal.posInf
    else if a < 0 then JsVal.negInf
    else JsVal.nan
  else JsVal.num (a / b)

/-- Multiplication by the positive literal `100`: scales a finite value and
preserves infinities and NaN. -/
def jsMul100 : JsVal → JsVal
  | JsVal.num q => JsVal.num (q * 100)
  | JsVal.posInf => JsVal.posInf
  | JsVal.negInf => JsVal.negInf
  | JsVal.nan => JsVal.nan

/-- `Analytics.tsx`, `loadAnalytics` lines 122-124: given the chronological
monthly bucket totals, the displayed trend is
`((last - secondLast) / secondLast) * 100` when at least two buckets exist
and `0` otherwise. -/
def trendPercent (monthly : List ℚ) : JsVal :=
  if 2 ≤ monthly.length then
    let latest := monthly.getD (monthly.length - 1) 0
    let prev := monthly.getD (monthly.length - 2) 0
    jsMul100 (jsDiv (latest - prev) prev)
  else JsVal.num 0

/-- `Budget.tsx` lines 146-151:
`percentage = allocated > 0 ? (spent / allocated) * 100 : 0`. -/
def utilizationPercent (allocated spent : ℚ) : ℚ :=
  if 0 < allocated then spent / allocated * 100 else 0

/-- `Budget.tsx` line 150: `isOverBudget = percentage > 100`. -/
def isOverBudget (allocated spent : ℚ) : Bool :=
  decide (100 < utilizationPercent allocated spent)

/-- The slice of the store one user's expense/achievement flow touches:
the user's expense-row count, the achievement catalog (by name; the
metadata columns play no role in the unlock logic) and the user's
`user_achievements` rows (by achievement name, since the catalog lookup is
by unique name). -/
structure AchDb where
  expenses : ℕ
  achievements : List String
  userAchievements : List String
  deriving Repr, DecidableEq

/-- The `UNIQUE(user_id, achievement_id)` constraint of the
`user_achievements` table (migration lines 209-215): an insert that would
duplicate an existing row is rejected, leaving the table unchanged. -/
def dbInsertUserAchievement (rows : List String) (name : String) : List String :=
  if name ∈ rows then rows else name :: rows

/-- `Expenses.tsx`, `ensureAchievement` lines 126-135: look the achievement
up by name and insert a catalog row only when none exists. -/
def ensureAchievement (db : AchDb) (name : String) : AchDb :=
  if name ∈ db.achievements then db
  else { db with achievements := name :: db.achievements }

/-- `Expenses.tsx`, `unlockAchievement` lines 137-156: fetch the achievement
by name (return silently when absent), check whether the user already has
the unlock row, and insert one only when not.  The second component reports
whether an insert was issued. -/
def unlockAchievement (db : AchDb) (name : String) : AchDb × Bool :=
  if name ∈ db.achievements then
    if name ∈ db.userAchievements then (db, false)
    else
      ({ db with
          userAchievements := dbInsertUserAchievement db.userAchievements name },
        true)
  else (db, false)

/-- `Expenses.tsx`, `handleSubmit` lines 62-108, restricted to the
expense-insert and achievement part (the XP write is `expenseXpAwardClient`
above): insert the expense row, count the user's expense rows, and when the
count is exactly 1 run the `First Expense` ensure-and-unlock flow.  The
Boolean reports whether the unlock path was attempted. -/
def expensesHandleSubmit (db : AchDb) : AchDb × Bool :=
  let db1 := { db with expenses := db.expenses + 1 }
  if db1.expenses = 1 then
    ((unlockAchievement (ensureAchievement db1 "First Expense")
        "First Expense").1, true)
  else (db1, false)

/-- A persisted lesson row (`lessons` table), the columns written by the
`generate-course` edge function. -/
structure LessonRow where
  course_id : String
  title : String
  content : String
  order_index : ℕ
  xp_reward : ℕ
  estimated_minutes : ℕ
  deriving Repr, DecidableEq

/-- One generated lesson as parsed from the provider response
(`lessonsOut`); reward and minutes may be absent (`?? 100`, `?? 10`). -/
structure GenLesson where
  title : String
  content : String
  xp_reward : Option ℕ
  estimated_minutes : Option ℕ
  deriving Repr, DecidableEq

/-- `generate-course`, `lessonsOut.map((l, idx) => ({...}))` lines 130-137:
the rows inserted for the course, `order_index = idx + 1`. -/
def genLessonRows (courseId : String) : List GenLesson → ℕ → List LessonRow
  | [], _ => []
  | l :: rest, idx =>
      { course_id := courseId
        title := l.title
        content := l.content
        order_index := idx + 1
        xp_reward := l.xp_reward.getD 100
        estimated_minutes := l.estimated_minutes.getD 10 } ::
        genLessonRows courseId rest (idx + 1)

/-- `generate-course` edge function, persist step lines 127-141, with a
configured store client and an existing `courseId`: all `lessons` rows of
the course are deleted, then the freshly generated rows are inserted (the
insert is skipped when there are none). -/
def persistCourseLessons (store : List LessonRow) (courseId : String)
    (lessonsOut : List GenLesson) : List LessonRow :=
  let remaining := store.filter fun r => !(r.course_id == courseId)
  let rows := genLessonRows courseId lessonsOut 0
  if rows.length > 0 then remaining ++ rows else remaining

/-- A quiz question as loaded by `Quiz.tsx` (interface `Question`). -/
structure Question where
  id : String
  question : String
  options : List String
  correct_answer : String
  explanation : String
  difficulty : String
  topic : String
  deriving Repr, DecidableEq, Inhabited

/-- The `Quiz` page's component state relevant to scoring (the
`selectedAnswer` display state is presentation-only and omitted). -/
structure QuizState where
  score : ℕ
  lives : ℤ
  currentQuestion : ℕ
  showExplanation : Bool
  quizComplete : Bool
  deriving Repr, DecidableEq

/-- `Quiz.tsx`, `handleAnswer` lines 67-82: ignore clicks while the
explanation is shown; otherwise reveal the explanation and either increment
the score (correct) or decrement the lives counter (incorrect).  The source
indexes `questions[currentQuestion]` and assumes it is in range; `getD`
with the default question models that access. -/
def handleAnswer (questions : List Question) (st : QuizState)
    (answer : String) : QuizState :=
  if st.showExplanation then st
  else if answer == (questions.getD st.currentQuestion default).correct_answer then
    { st with showExplanation := true, score := st.score + 1 }
  else
    { st with showExplanation := true, lives := st.lives - 1 }

/-- `Quiz.tsx`, `handleNext` lines 84-94: advance to the next question, or
mark the quiz complete (and save the attempt) after the last one.  Lives
are not consulted. -/
def handleNext (numQuestions : ℕ) (st : QuizState) : QuizState :=
  if st.currentQuestion < numQuestions - 1 then
    { st with currentQuestion := st.currentQuestion + 1, showExplanation := false }
  else { st with quizComplete := true }

/-- A `quiz_attempts` row, restricted to the columns the claims are about
(`quiz_type` and `topic` are constant strings). -/
structure QuizAttempt where
  score : ℕ
  total_questions : ℕ
  xp_earned : ℕ
  deriving Repr, DecidableEq

/-- `Quiz.tsx`, `saveQuizAttempt` lines 96-136: append one attempt row with
`xp_earned = score * 100`, then write the profile with `xp = xp + xpEarned`
and `level = Math.floor(newXP / 1000) + 1`. -/
def saveQuizAttempt (attempts : List QuizAttempt) (p : Profile)
    (score numQuestions : ℕ) : List QuizAttempt × Profile :=
  let xpEarned := score * 100
  (attempts ++
      [{ score := score, total_questions := numQuestions, xp_earned := xpEarned }],
    { p with xp := p.xp + xpEarned, level := (p.xp + xpEarned) / 1000 + 1 })

end Finlit

namespace Finlit

/-- C5: the daily-login streak rule: `1` with no recorded previous login,
`streak + 1` when the whole-day difference is exactly `1`, and a reset to `1`
when it is greater than `1`. -/
theorem dailyLogin_streak_rule (p : Profile) (today : ℤ) :
    (p.lastLoginDate = none → (handleDailyLoginReward p today).streakDays = 1) ∧
    (∀ d, p.lastLoginDate = some d → today - d = 1 →
      (handleDailyLoginReward p today).streakDays = p.streakDays + 1) ∧
    (∀ d, p.lastLoginDate = some d → 1 < today - d →
      (handleDailyLoginReward p today).streakDays = 1) := by
  refine ⟨fun h => ?_, fun d hd h1 => ?_, fun d hd hgt => ?_⟩
  · simp [handleDailyLoginReward, h]
  · simp [handleDailyLoginReward, hd, h1]
  · have hne : today - d ≠ 1 := by omega
    simp [handleDailyLoginReward, hd, hne, hgt]

/-- Witness for `dailyLogin_streak_rule`: a profile with streak 5 whose last
login was 2 days ago ends up with streak 1 after today's login. -/
theorem dailyLogin_streak_rule_witness :
    (handleDailyLoginReward ⟨100, 1, 0, 5, some 0⟩ 2).streakDays = 1 :=
  (dailyLogin_streak_rule ⟨100, 1, 0, 5, some 0⟩ 2).2.2 0 rfl (by decide)

/-- C3: every invocation of the daily-login handler on an existing profile
adds exactly 20 XP — unconditionally, so also when the recorded last login
is already today (`diffDays == 0`). -/
theorem dailyLogin_xp_always_plus_20 (p : Profile) (today : ℤ) :
    (handleDailyLoginReward p today).xp = p.xp + 20 := by
  cases h : p.lastLoginDate <;> simp [handleDailyLoginReward, h]

/-- C7: adding `a > 0` to a savings goal adds exactly `a` to
`current_amount` and sets `completed` to `new current >= target`; a
completed goal (so `current >= target`) never has `current_amount` reduced
by a further add and never has `completed` turned back off. -/
theorem addToGoal_correct (g : SavingsGoal) (a : ℚ) :
    (0 < a →
      (addToGoal g a).current_amount = g.current_amount + a ∧
      (addToGoal g a).completed =
        decide (g.current_amount + a ≥ g.target_amount)) ∧
    (g.target_amount ≤ g.current_amount → g.completed = true →
      g.current_amount ≤ (addToGoal g a).current_amount ∧
      (addToGoal g a).completed = true) := by
  constructor
  · intro ha
    have hna : ¬ a ≤ 0 := not_le.mpr ha
    simp [addToGoal, hna]
  · intro hct hc
    by_cases ha : a ≤ 0
    · simp [addToGoal, ha, hc]
    · have ha' : 0 < a := not_le.mp ha
      refine ⟨?_, ?_⟩
      · simp only [addToGoal, if_neg ha]
        linarith
      · simp only [addToGoal, if_neg ha, decide_eq_true_eq]
        linarith

/-- Witness for `addToGoal_correct`: a goal with target 500 and current 500
(completed) receives a further add of 10: `current_amount` becomes 510 and
`completed` stays `true`. -/
theorem addToGoal_correct_witness :
    (addToGoal ⟨500, 500, true⟩ 10).current_amount = 500 + 10 ∧
    (addToGoal ⟨500, 500, true⟩ 10).completed = true ∧
    500 ≤ (addToGoal ⟨500, 500, true⟩ 10).current_amount := by
  have h := addToGoal_correct ⟨500, 500, true⟩ 10
  have h1 := h.1 (by norm_num)
  have h2 := h.2 (by norm_num) rfl
  refine ⟨h1.1, h2.2, ?_⟩
  have := h2.1
  simpa using this

/-- C1 (code bug): the level invariant `level = floor(xp/1000) + 1` is broken
by the daily-login and expense XP writes, which update `xp` without
recomputing `level`.  A profile holding `xp = 990`, `level = 1` receives the
+20 daily bonus: the stored row has `xp = 1010` but still `level = 1`,
whereas the invariant demands `floor(1010/1000) + 1 = 2`; likewise the
client-side expense award leaves `level = 1` at `xp = 1000`.  The
repository's own SQL function `add_xp_to_user` does maintain the invariant,
confirming the recomputation was intended. -/
theorem xp_level_invariant_broken :
    (handleDailyLoginReward ⟨990, 1, 0, 3, some 0⟩ 0).xp = 1010 ∧
    (handleDailyLoginReward ⟨990, 1, 0, 3, some 0⟩ 0).level = 1 ∧
    levelFor 1010 = 2 ∧
    (expenseXpAwardClient ⟨990, 1, 0, 3, some 0⟩).xp = 1000 ∧
    (expenseXpAwardClient ⟨990, 1, 0, 3, some 0⟩).level = 1 ∧
    levelFor 1000 = 2 ∧
    (∀ p : Profile, ∀ amount : ℕ,
      (add_xp_to_user p amount).level = levelFor (add_xp_to_user p amount).xp) ∧
    (∀ p : Profile, ∀ xpEarned : ℕ,
      (quizXpAward p xpEarned).level = levelFor (quizXpAward p xpEarned).xp) := by
  refine ⟨by decide, by decide, by decide, by decide, by decide, by decide,
    fun p amount => ?_, fun p xpEarned => ?_⟩
  · simp [add_xp_to_user, levelFor]
  · simp [quizXpAward, levelFor]

/-- C2: the lesson-ensure operation is idempotent on a lesson with non-blank
in-memory content: the first call already returns without invoking
generation and without changing the lesson list, hence so does a second
sequential call; and the server-side persist step leaves a non-blank stored
value unchanged and reports nothing saved. -/
theorem ensureLessonContent_idempotent (lessons : List LessonMem)
    (lid : String) (l : LessonMem) (g1 g2 : String)
    (hfind : lessons.find? (fun x => x.id == lid) = some l)
    (hc : contentNonBlank l.content = true) :
    ensureLessonContent lessons lid g1 = (false, lessons) ∧
    ensureLessonContent (ensureLessonContent lessons lid g1).2 lid g2 =
      (false, lessons) ∧
    (∀ stored txt, contentNonBlank stored = true →
      persistLessonContent (some stored) txt = (stored, false)) := by
  have h1 : ensureLessonContent lessons lid g1 = (false, lessons) := by
    simp [ensureLessonContent, hfind, hc]
  refine ⟨h1, ?_, ?_⟩
  · rw [h1]
    simp [ensureLessonContent, hfind, hc]
  · intro stored txt hs
    simp [persistLessonContent, hs]

/-- Witness for `ensureLessonContent_idempotent`: two sequential ensure
calls on a one-lesson page state whose content is `"Intro text"` both skip
generation and leave the state unchanged, and the server persist step keeps
the stored text. -/
theorem ensureLessonContent_idempotent_witness :
    ensureLessonContent [⟨"l1", "Budgeting", some "Intro text", 1, 100, 10, false⟩]
      "l1" "fresh" =
      (false, [⟨"l1", "Budgeting", some "Intro text", 1, 100, 10, false⟩]) ∧
    ensureLessonContent
      (ensureLessonContent
        [⟨"l1", "Budgeting", some "Intro text", 1, 100, 10, false⟩] "l1" "fresh").2
      "l1" "again" =
      (false, [⟨"l1", "Budgeting", some "Intro text", 1, 100, 10, false⟩]) ∧
    persistLessonContent (some (some "Intro text")) "fresh" =
      (some "Intro text", false) := by
  have h := ensureLessonContent_idempotent
    [⟨"l1", "Budgeting", some "Intro text", 1, 100, 10, false⟩]
    "l1" ⟨"l1", "Budgeting", some "Intro text", 1, 100, 10, false⟩
    "fresh" "again" (by decide) (by decide)
  exact ⟨h.1, h.2.1, h.2.2 (some "Intro text") "fresh" (by decide)⟩

/-- C4 counterexample: on buckets `[0, 50]` (previous month total 0) the
displayed trend is `Infinity`, not the claimed 0: the source divides without
guarding against a zero previous bucket. -/
theorem trendPercent_zero_prev_counterexample :
    trendPercent [0, 50] = JsVal.posInf ∧ JsVal.posInf ≠ JsVal.num 0 := by
  constructor
  · have h2 : ([0, 50] : List ℚ).length = 2 := rfl
    simp only [trendPercent, h2, le_refl, if_true]
    norm_num [List.getD, jsDiv, jsMul100]
  · simp

/-- C4 (amended): with fewer than two buckets the trend is 0; with at least
two buckets and a non-zero previous total it is
`(latest - prev) / prev * 100`; with a zero previous total the JavaScript
division yields `Infinity`, `-Infinity` or `NaN` — never the finite 0. -/
theorem trendPercent_correct (monthly : List ℚ) :
    (monthly.length < 2 → trendPercent monthly = JsVal.num 0) ∧
    (∀ prev latest, 2 ≤ monthly.length →
      monthly.getD (monthly.length - 2) 0 = prev →
      monthly.getD (monthly.length - 1) 0 = latest →
      prev ≠ 0 →
      trendPercent monthly = JsVal.num ((latest - prev) / prev * 100)) ∧
    (2 ≤ monthly.length → monthly.getD (monthly.length - 2) 0 = 0 →
      trendPercent monthly = JsVal.posInf ∨
      trendPercent monthly = JsVal.negInf ∨
      trendPercent monthly = JsVal.nan) := by
  refine ⟨fun hlt => ?_, fun prev latest hlen hp hl hne => ?_, fun hlen hz => ?_⟩
  · have : ¬ 2 ≤ monthly.length := by omega
    simp [trendPercent, this]
  · simp only [trendPercent, if_pos hlen, hp, hl, jsDiv, if_neg hne, jsMul100]
  · simp only [trendPercent, if_pos hlen, hz, sub_zero]
    generalize monthly.getD (monthly.length - 1) 0 = L
    by_cases h1 : (0 : ℚ) < L
    · left
      simp [jsDiv, h1, jsMul100]
    · by_cases h2 : L < 0
      · right; left
        simp [jsDiv, h1, h2, jsMul100]
      · right; right
        simp [jsDiv, h1, h2, jsMul100]

/-- Witness for `trendPercent_correct`: buckets `[100, 150]` give a trend of
exactly 50. -/
theorem trendPercent_correct_witness :
    trendPercent [100, 150] = JsVal.num 50 := by
  have h := (trendPercent_correct [100, 150]).2.1 100 150
    (by decide) (by decide) (by decide) (by norm_num)
  rw [h]
  norm_num

/-- C8 counterexample: at allocation `A = -100` and spend `S = 50` the
displayed utilization is 0 (the source's guard is `allocated > 0`, not
`allocated ≠ 0`), whereas the claimed formula `S/A*100` demands `-50`. -/
theorem utilization_negative_allocation_counterexample :
    utilizationPercent (-100) 50 = 0 ∧
    (50 : ℚ) / (-100) * 100 = -50 ∧ (0 : ℚ) ≠ -50 := by
  refine ⟨?_, by norm_num, by norm_num⟩
  norm_num [utilizationPercent]

/-- C8 (amended): the displayed utilization is `S/A*100` when `A > 0` and 0
when `A ≤ 0` (so for `A = 0` as claimed, but also for a negative
allocation); the over-budget flag is true iff the utilization exceeds
100. -/
theorem utilization_correct (A S : ℚ) :
    (0 < A → utilizationPercent A S = S / A * 100) ∧
    (A ≤ 0 → utilizationPercent A S = 0) ∧
    (isOverBudget A S = true ↔ 100 < utilizationPercent A S) := by
  refine ⟨fun h => ?_, fun h => ?_, ?_⟩
  · simp [utilizationPercent, h]
  · simp [utilizationPercent, not_lt.mpr h]
  · simp [isOverBudget]

/-- Witness for `utilization_correct`: allocation 200 with spend 250 shows
125% utilization and raises the over-budget flag; allocation 0 shows 0%. -/
theorem utilization_correct_witness :
    utilizationPercent 200 250 = 125 ∧
    isOverBudget 200 250 = true ∧
    utilizationPercent 0 50 = 0 := by
  have h := utilization_correct (200 : ℚ) 250
  have h0 := (utilization_correct (0 : ℚ) 50).2.1 le_rfl
  have h1 : utilizationPercent 200 250 = 125 := by
    rw [h.1 (by norm_num)]; norm_num
  exact ⟨h1, h.2.2.mpr (by rw [h1]; norm_num), h0⟩

/-- C6: on the first-ever expense insert the unlock path runs and produces
exactly one `First Expense` row; a second expense insert does not attempt
the unlock and leaves the unlock rows untouched; and the unique constraint
rejects any duplicate insert. -/
theorem firstExpense_unlock_once (db : AchDb)
    (h0 : db.expenses = 0)
    (hua : "First Expense" ∉ db.userAchievements) :
    (expensesHandleSubmit db).2 = true ∧
    (expensesHandleSubmit db).1.userAchievements.count "First Expense" = 1 ∧
    (expensesHandleSubmit (expensesHandleSubmit db).1).2 = false ∧
    (expensesHandleSubmit (expensesHandleSubmit db).1).1.userAchievements =
      (expensesHandleSubmit db).1.userAchievements ∧
    (∀ rows name, name ∈ rows → dbInsertUserAchievement rows name = rows) := by
  have hcount : db.userAchievements.count "First Expense" = 0 :=
    List.count_eq_zero.mpr hua
  have hr1 : expensesHandleSubmit db =
      ({ expenses := 1
         achievements := (ensureAchievement { db with expenses := 1 }
           "First Expense").achievements
         userAchievements := "First Expense" :: db.userAchievements }, true) := by
    by_cases hach : "First Expense" ∈ db.achievements <;>
      simp [expensesHandleSubmit, ensureAchievement, unlockAchievement,
        dbInsertUserAchievement, h0, hua, hach]
  refine ⟨by rw [hr1], ?_, ?_, ?_, ?_⟩
  · rw [hr1]
    simp [List.count_cons, hcount]
  · rw [hr1]
    simp [expensesHandleSubmit]
  · rw [hr1]
    simp [expensesHandleSubmit]
  · intro rows name hmem
    simp [dbInsertUserAchievement, hmem]

/-- Witness for `firstExpense_unlock_once`: starting from a user with no
expenses and no unlocks, the first insert attempts and records the unlock
once, and the second insert neither attempts nor duplicates it. -/
theorem firstExpense_unlock_once_witness :
    (expensesHandleSubmit ⟨0, [], []⟩).2 = true ∧
    (expensesHandleSubmit ⟨0, [], []⟩).1.userAchievements.count
      "First Expense" = 1 ∧
    (expensesHandleSubmit (expensesHandleSubmit ⟨0, [], []⟩).1).2 = false ∧
    (expensesHandleSubmit (expensesHandleSubmit ⟨0, [], []⟩).1).1.userAchievements =
      (expensesHandleSubmit ⟨0, [], []⟩).1.userAchievements := by
  have h := firstExpense_unlock_once ⟨0, [], []⟩ rfl (by simp)
  exact ⟨h.1, h.2.1, h.2.2.1, h.2.2.2.1⟩

/-- Every row produced by `genLessonRows` carries the course id it was
generated for. -/
theorem genLessonRows_course_id (cid : String) :
    ∀ ls idx, ∀ r ∈ genLessonRows cid ls idx, r.course_id = cid := by
  intro ls
  induction ls with
  | nil => intro idx r hr; simp [genLessonRows] at hr
  | cons l rest ih =>
      intro idx r hr
      rcases (by simpa [genLessonRows] using hr :
          r = _ ∨ r ∈ genLessonRows cid rest (idx + 1)) with h | h
      · rw [h]
      · exact ih (idx + 1) r h

/-- C9: invoking the whole-course generation function with an existing
course id and a configured store client replaces the course's lesson rows
wholesale: afterwards the rows of that course are exactly the freshly
generated ones, rows of other courses are untouched, and a previously
persisted row of the course — whatever its content — survives only if it
coincides with a generated row. -/
theorem generateCourse_replaces_lessons (store : List LessonRow)
    (cid : String) (gen : List GenLesson) :
    (persistCourseLessons store cid gen).filter
        (fun r => r.course_id == cid) = genLessonRows cid gen 0 ∧
    (persistCourseLessons store cid gen).filter
        (fun r => !(r.course_id == cid)) =
      store.filter (fun r => !(r.course_id == cid)) ∧
    (∀ r ∈ store, r.course_id = cid →
      r ∈ persistCourseLessons store cid gen → r ∈ genLessonRows cid gen 0) := by
  have hps : persistCourseLessons store cid gen =
      store.filter (fun r => !(r.course_id == cid)) ++ genLessonRows cid gen 0 := by
    unfold persistCourseLessons
    by_cases h : (genLessonRows cid gen 0).length > 0
    · simp [h]
    · have hnil : genLessonRows cid gen 0 = [] :=
        List.length_eq_zero.mp (by omega)
      simp [h, hnil]
  have hrowsid := genLessonRows_course_id cid gen 0
  refine ⟨?_, ?_, ?_⟩
  · rw [hps, List.filter_append]
    have hleft : (store.filter (fun r => !(r.course_id == cid))).filter
        (fun r => r.course_id == cid) = [] := by
      rw [List.filter_eq_nil_iff]
      intro a ha
      have := (List.mem_filter.mp ha).2
      simp at this
      simp [this]
    have hright : (genLessonRows cid gen 0).filter
        (fun r => r.course_id == cid) = genLessonRows cid gen 0 := by
      rw [List.filter_eq_self]
      intro a ha
      simp [hrowsid a ha]
    rw [hleft, hright, List.nil_append]
  · rw [hps, List.filter_append]
    have hleft : (store.filter (fun r => !(r.course_id == cid))).filter
        (fun r => !(r.course_id == cid)) =
        store.filter (fun r => !(r.course_id == cid)) := by
      rw [List.filter_eq_self]
      intro a ha
      exact (List.mem_filter.mp ha).2
    have hright : (genLessonRows cid gen 0).filter
        (fun r => !(r.course_id == cid)) = [] := by
      rw [List.filter_eq_nil_iff]
      intro a ha
      simp [hrowsid a ha]
    rw [hleft, hright, List.append_nil]
  · intro r _ hid hmem
    rw [hps] at hmem
    rcases List.mem_append.mp hmem with h | h
    · have := (List.mem_filter.mp h).2
      simp [hid] at this
    · exact h

/-- Witness for `generateCourse_replaces_lessons`: a store holding an old
non-empty lesson of course `c1` and a lesson of another course; after
regeneration the `c1` rows are exactly the new one, the other course's row
is kept, and the old `c1` row is gone. -/
theorem generateCourse_replaces_lessons_witness :
    (persistCourseLessons
        [⟨"c1", "Old", "old content", 1, 100, 10⟩,
         ⟨"c2", "Other", "keep", 1, 100, 10⟩] "c1"
        [⟨"New", "new content", none, none⟩]).filter
      (fun r => r.course_id == "c1") =
      genLessonRows "c1" [⟨"New", "new content", none, none⟩] 0 ∧
    (⟨"c1", "Old", "old content", 1, 100, 10⟩ : LessonRow) ∉
      persistCourseLessons
        [⟨"c1", "Old", "old content", 1, 100, 10⟩,
         ⟨"c2", "Other", "keep", 1, 100, 10⟩] "c1"
        [⟨"New", "new content", none, none⟩] := by
  have h := generateCourse_replaces_lessons
    [⟨"c1", "Old", "old content", 1, 100, 10⟩,
     ⟨"c2", "Other", "keep", 1, 100, 10⟩] "c1"
    [⟨"New", "new content", none, none⟩]
  refine ⟨h.1, fun hmem => ?_⟩
  have hin := h.2.2 ⟨"c1", "Old", "old content", 1, 100, 10⟩
    (by simp) rfl hmem
  simp [genLessonRows] at hin

/-- C10: completing a quiz with `s` correct answers out of `n` questions
appends exactly one attempt row `{score := s, total_questions := n,
xp_earned := 100 * s}` and updates the profile to `xp + 100 * s` with the
level recomputed as `floor(newXp/1000) + 1`; an incorrect answer decrements
the lives counter, leaves the score unchanged, and — like every answer
click — never marks the quiz complete, so running out of lives does not end
the quiz. -/
theorem quiz_attempt_and_lives (attempts : List QuizAttempt) (p : Profile)
    (s n : ℕ) (questions : List Question) (st : QuizState) (answer : String) :
    (saveQuizAttempt attempts p s n).1 =
      attempts ++ [{ score := s, total_questions := n, xp_earned := 100 * s }] ∧
    (saveQuizAttempt attempts p s n).2.xp = p.xp + 100 * s ∧
    (saveQuizAttempt attempts p s n).2.level = (p.xp + 100 * s) / 1000 + 1 ∧
    (st.showExplanation = false →
      answer ≠ (questions.getD st.currentQuestion default).correct_answer →
      (handleAnswer questions st answer).lives = st.lives - 1 ∧
      (handleAnswer questions st answer).score = st.score) ∧
    (handleAnswer questions st answer).quizComplete = st.quizComplete := by
  refine ⟨?_, ?_, ?_, fun hse hwrong => ?_, ?_⟩
  · simp [saveQuizAttempt, Nat.mul_comm]
  · simp [saveQuizAttempt, Nat.mul_comm]
  · simp [saveQuizAttempt, Nat.mul_comm]
  · have hwrong' : answer ≠
        (questions[st.currentQuestion]?.getD default).correct_answer := by
      simpa using hwrong
    constructor <;> simp [handleAnswer, hse, hwrong']
  · by_cases hse : st.showExplanation
    · simp [handleAnswer, hse]
    · by_cases hw : answer =
          (questions[st.currentQuestion]?.getD default).correct_answer <;>
        simp [handleAnswer, hse, hw]

/-- Witness for `quiz_attempt_and_lives`: a wrong answer on the last life
takes lives from 0 to -1 without touching the score or ending the quiz, and
saving a 7/10 attempt on a profile with 300 XP yields xp 1000 and level
2. -/
theorem quiz_attempt_and_lives_witness :
    (handleAnswer [⟨"q1", "?", ["A", "B"], "A", "", "easy", "tax"⟩]
        ⟨2, 0, 0, false, false⟩ "B").lives = -1 ∧
    (handleAnswer [⟨"q1", "?", ["A", "B"], "A", "", "easy", "tax"⟩]
        ⟨2, 0, 0, false, false⟩ "B").score = 2 ∧
    (handleAnswer [⟨"q1", "?", ["A", "B"], "A", "", "easy", "tax"⟩]
        ⟨2, 0, 0, false, false⟩ "B").quizComplete = false ∧
    (saveQuizAttempt [] ⟨300, 1, 0, 0, none⟩ 7 10).2.xp = 1000 ∧
    (saveQuizAttempt [] ⟨300, 1, 0, 0, none⟩ 7 10).2.level = 2 := by
  have h := quiz_attempt_and_lives [] ⟨300, 1, 0, 0, none⟩ 7 10
    [⟨"q1", "?", ["A", "B"], "A", "", "easy", "tax"⟩]
    ⟨2, 0, 0, false, false⟩ "B"
  have hw := h.2.2.2.1 rfl (by decide)
  exact ⟨hw.1, hw.2, h.2.2.2.2, h.2.1, h.2.2.1⟩

end Finlit
